import Mathlib

/-!
The function `auth.RequestMinecraftChain` of gophertunnel.

A shallow embedding of `minecraft/auth/minecraft.go` and
`minecraft/protocol/info.go`.

Go values are embedded as follows.

* A Go `string` and a Go `[]byte` are both finite byte sequences, and the
  conversion `string(data)` keeps every byte, so both are `List Byte` and the
  conversion is the identity.
* A Go `error` is `Option GoError`, `none` being `nil`.
* The effects of a call (the round trip through the HTTP client, reading and
  closing the response body, releasing idle connections) are recorded, in
  program order, in the `trace` of the returned `Outcome`.
* The pointers `token` and `key` are taken to be non-nil and `ctx` to be a
  non-nil context, which is the precondition stated for the operation; with a
  nil pointer the Go function does not return at all.
-/

set_option autoImplicit false

/-- One octet. -/
abbrev Byte := Fin 256

/-- Go `string` (and `[]byte`): a finite sequence of octets. -/
abbrev GoString := List Byte

/-- The bytes of an ASCII source literal. -/
def ascii (s : String) : GoString :=
  s.data.map (fun ch => Fin.ofNat ch.toNat)

/-- Go `error` values: either a plain error, or one built by `fmt.Errorf`
with the verb `%w`, which keeps the wrapped error for `Unwrap`. -/
inductive GoError where
  | errorString (s : GoString)
  | wrapError (msg : GoString) (err : GoError)
  deriving DecidableEq, Repr

namespace GoError

/-- The method `Error() string`. -/
def Error : GoError → GoString
  | errorString s => s
  | wrapError msg _ => msg

/-- The method `Unwrap() error`; `none` where the error wraps nothing. -/
def Unwrap : GoError → Option GoError
  | errorString _ => none
  | wrapError _ err => some err

end GoError

/-! ## `encoding/base64`, `StdEncoding` -/

namespace base64

/-- The standard alphabet of RFC 4648, the `encodeStd` constant. -/
def encodeStd : GoString :=
  ascii "ABCDEFGHIJKLMNOPQRSTUVWXYZabcdefghijklmnopqrstuvwxyz0123456789+/"

/-- The padding character `StdPadding`, '='. -/
def StdPadding : Byte := 61

/-- The lookup `enc.encode[i]` in the alphabet table. -/
def encode (i : Nat) : Byte := encodeStd.getD i 0

/-- The inverse table `enc.decodeMap`: the position of a character in the
alphabet, `none` for a character outside it. -/
def decodeMap (ch : Byte) : Option Nat :=
  let i := encodeStd.indexOf ch
  if i < 64 then some i else none

/-- The method `StdEncoding.EncodeToString`: every three input bytes form a 24-bit value
`val` whose four 6-bit groups are looked up in the alphabet; a remainder of
one or two bytes is zero-extended, encoded to two or three characters and
padded with '=' to four. -/
def EncodeToString : List Byte → GoString
  | [] => []
  | [b0] =>
    let val := b0.val * 65536
    [encode (val / 262144 % 64), encode (val / 4096 % 64), StdPadding, StdPadding]
  | [b0, b1] =>
    let val := b0.val * 65536 + b1.val * 256
    [encode (val / 262144 % 64), encode (val / 4096 % 64), encode (val / 64 % 64), StdPadding]
  | b0 :: b1 :: b2 :: src =>
    let val := b0.val * 65536 + b1.val * 256 + b2.val
    encode (val / 262144 % 64) :: encode (val / 4096 % 64) :: encode (val / 64 % 64)
      :: encode (val % 64) :: EncodeToString src

/-- The method `StdEncoding.DecodeString` on input without line breaks: the input is read
in quanta of four characters; only the last quantum may end in one or two
'=' signs, and it then yields two bytes or one. Any other shape, and any
character outside the alphabet, is a `CorruptInputError`, here `none`. -/
def DecodeString : GoString → Option (List Byte)
  | [] => some []
  | c0 :: c1 :: c2 :: c3 :: rest =>
    if rest = [] ∧ c3 = StdPadding then
      if c2 = StdPadding then
        match decodeMap c0, decodeMap c1 with
        | some s0, some s1 => some [Fin.ofNat (s0 * 4 + s1 / 16)]
        | _, _ => none
      else
        match decodeMap c0, decodeMap c1, decodeMap c2 with
        | some s0, some s1, some s2 =>
          some [Fin.ofNat (s0 * 4 + s1 / 16), Fin.ofNat (s1 % 16 * 16 + s2 / 4)]
        | _, _, _ => none
    else
      match decodeMap c0, decodeMap c1, decodeMap c2, decodeMap c3, DecodeString rest with
      | some s0, some s1, some s2, some s3, some out =>
        some (Fin.ofNat (s0 * 4 + s1 / 16) :: Fin.ofNat (s1 % 16 * 16 + s2 / 4)
          :: Fin.ofNat (s2 % 4 * 64 + s3) :: out)
      | _, _, _, _, _ => none
  | _ => none

end base64

/-- A character that cannot stand unescaped inside a JSON string (RFC 8259,
section 7): the quotation mark, the reverse solidus and the control characters;
bytes from 0x80 on are not ASCII and are counted in as well. -/
def needsJSONEscape (ch : Byte) : Bool :=
  decide (ch.val < 32) || decide (ch.val = 34) || decide (ch.val = 92) || decide (128 ≤ ch.val)

/-! ## `net/http` -/

/-- A `context.Context`, observed through its method `Err()`: `none` while the
context is live, the cancellation or deadline error once it is done. -/
structure Context where
  Err : Option GoError
  deriving DecidableEq, Repr

/-- The type `http.Header`: header names with their values. -/
abbrev Header := List (GoString × List GoString)

namespace Header

/-- The method `Header.Set`: the values under `key` are replaced by the single
value `value`. Every key used below is a literal already in canonical MIME
form, on which the canonicalisation done by `Set` and `Get` is the identity. -/
def Set (h : Header) (key value : GoString) : Header :=
  (key, [value]) :: h.filter (fun kv => decide (kv.1 ≠ key))

/-- The method `Header.Values`: all values under `key`. -/
def Values (h : Header) (key : GoString) : List GoString :=
  (h.lookup key).getD []

/-- The method `Header.Get`: the first value under `key`, the empty string when
there is none. -/
def Get (h : Header) (key : GoString) : GoString :=
  (h.Values key).headD []

end Header

/-- An `http.Request` as far as it is built here: method, URL, header, the bytes
the body reader yields, and the context travelling with the request. -/
structure Request where
  ctx : Context
  Method : GoString
  URL : GoString
  Header : Header
  Body : GoString
  deriving DecidableEq, Repr

/-- The function `http.NewRequestWithContext` for a valid method, a URL that
parses and a non-nil context: a request with an empty header. -/
def NewRequestWithContext (ctx : Context) (method url body : GoString) : Request :=
  { ctx := ctx, Method := method, URL := url, Header := [], Body := body }

/-- The reader `resp.Body`, observed through `io.ReadAll`: the bytes read until
end of file or until the first error, and that error (`none` at end of file). -/
structure Body where
  ReadAll : GoString × Option GoError
  deriving DecidableEq, Repr

/-- An `http.Response`: numeric status code, status description such as
`403 Forbidden`, and the body reader. -/
structure Response where
  StatusCode : Int
  Status : GoString
  Body : Body
  deriving DecidableEq, Repr

/-- What `Client.Do` hands back: a transport-level error, in which case the
response is ignored, or a response. -/
inductive DoResult where
  | err (e : GoError)
  | resp (r : Response)
  deriving DecidableEq, Repr

/-- An `http.Client`, observed through the answer of `Do` to a request. -/
structure Client where
  Do : Request → DoResult

/-- The effects of a call, in program order. -/
inductive Event where
  /-- The call `c.Do(request)`. -/
  | Do (request : Request)
  /-- The call `io.ReadAll(resp.Body)`. -/
  | ReadAll
  /-- The call `c.CloseIdleConnections()`. -/
  | CloseIdleConnections
  /-- The deferred call `resp.Body.Close()`. -/
  | BodyClose
  deriving DecidableEq, Repr

/-! ## `minecraft/protocol/info.go` -/

namespace protocol

/-- CurrentProtocol is the current protocol version for the version below. -/
def CurrentProtocol : Nat := 712

/-- CurrentVersion is the current version of Minecraft as supported by the
packet package. -/
def CurrentVersion : GoString := ascii "1.21.20"

end protocol

/-! ## `minecraft/auth` -/

namespace auth

/-- Modelled from the spec: the type `XBLToken` is declared in a file of the
package that is not part of the sources at hand. The spec's SecurityToken
"carries at minimum a user-hash string and a token string"; these are the two
fields the authorization header is made of. -/
structure XBLToken where
  UserHash : GoString
  Token : GoString
  deriving DecidableEq, Repr

/-- Modelled from the spec: the method `(*XBLToken).SetAuthHeader` is declared
next to `XBLToken`, outside the sources at hand. By the spec it sets
`Authorization` to the literal pattern `XBL3.0 x=<user-hash>;<token>`,
"substituting the token's fields verbatim". -/
def XBLToken.SetAuthHeader (t : XBLToken) (r : Request) : Request :=
  let value := ascii "XBL3.0 x=" ++ t.UserHash ++ ascii ";" ++ t.Token
  { r with Header := r.Header.Set (ascii "Authorization") value }

/-- An `ecdsa.PublicKey`, observed through the only thing done with it: the
pair `x509.MarshalPKIXPublicKey` returns for it, the DER bytes of its
SubjectPublicKeyInfo and an error. -/
structure PublicKey where
  pkix : List Byte × Option GoError
  deriving DecidableEq, Repr

/-- An `ecdsa.PrivateKey`; only its public part is used. -/
structure PrivateKey where
  PublicKey : PublicKey
  deriving DecidableEq, Repr

/-- The function `x509.MarshalPKIXPublicKey`. -/
def MarshalPKIXPublicKey (pub : PublicKey) : List Byte × Option GoError := pub.pkix

/-- The value `fmt.Errorf("POST %v: %w", url, err)`. -/
def ErrorfW (url : GoString) (err : GoError) : GoError :=
  GoError.wrapError (ascii "POST " ++ url ++ ascii ": " ++ err.Error) err

/-- The value `fmt.Errorf("POST %v: %v", url, status)`. -/
def ErrorfV (url status : GoString) : GoError :=
  GoError.errorString (ascii "POST " ++ url ++ ascii ": " ++ status)

/-- minecraftAuthURL is the URL that an authentication request is made to to get
an encoded JWT claim chain. -/
def minecraftAuthURL : GoString := ascii "https://multiplayer.minecraft.net/authentication"

/-- What a call returns, `(string, error)`, together with its effects. -/
structure Outcome where
  chain : GoString
  err : Option GoError
  trace : List Event
  deriving DecidableEq, Repr

/-- Lines 23 to 25 of `RequestMinecraftChain`: the client in use. `dflt` is the
client `&http.Client{}` created when the caller passed nil. -/
def client (dflt : Client) (c : Option Client) : Client :=
  match c with
  | none => dflt
  | some c => c

/-- Lines 27 to 39 of `RequestMinecraftChain`: the request handed to `c.Do`.
The error of `MarshalPKIXPublicKey` is dropped, as is the one of
`NewRequestWithContext`. -/
def request (ctx : Context) (token : XBLToken) (key : PrivateKey) : Request :=
  let data := (MarshalPKIXPublicKey key.PublicKey).1
  -- The body of the requests holds a JSON object with one key in it, the
  -- identityPublicKey, which holds the public key data of the private key passed.
  let body := ascii "\x7b\"identityPublicKey\":\"" ++ base64.EncodeToString data ++ ascii "\"\x7d"
  let request := NewRequestWithContext ctx (ascii "POST") minecraftAuthURL body
  let request := { request with
    Header := request.Header.Set (ascii "Content-Type") (ascii "application/json") }
  -- The Authorization header is composed of the uhs found in the XSTS token,
  -- and the Token it holds itself.
  let request := token.SetAuthHeader request
  let request := { request with
    Header := request.Header.Set (ascii "User-Agent") (ascii "MCPE/Android") }
  { request with
    Header := request.Header.Set (ascii "Client-Version") protocol.CurrentVersion }

/-- RequestMinecraftChain requests a fully processed Minecraft JWT chain using
the XSTS token passed, and the ECDSA private key of the client. -/
def RequestMinecraftChain (dflt : Client) (ctx : Context) (token : XBLToken)
    (key : PrivateKey) (c : Option Client) : Outcome :=
  let c := client dflt c
  let request := request ctx token key
  match c.Do request with
  | DoResult.err err =>
    { chain := [], err := some (ErrorfW minecraftAuthURL err), trace := [Event.Do request] }
  | DoResult.resp resp =>
    -- the deferred resp.Body.Close() runs when the function returns
    if resp.StatusCode ≠ 200 then
      { chain := [], err := some (ErrorfV minecraftAuthURL resp.Status),
        trace := [Event.Do request, Event.BodyClose] }
    else
      let (data, err) := resp.Body.ReadAll
      { chain := data, err := err,
        trace := [Event.Do request, Event.ReadAll, Event.CloseIdleConnections, Event.BodyClose] }

/-- The requests a call handed to `Do`, in order. -/
def Outcome.sent (o : Outcome) : List Request :=
  o.trace.filterMap (fun ev => match ev with
    | Event.Do r => some r
    | _ => none)

end auth

/-- A test server that echoes the body it received back with status 200. -/
def echoServer : Client :=
  { Do := fun r => DoResult.resp
      { StatusCode := 200, Status := ascii "200 OK", Body := { ReadAll := (r.Body, none) } } }

/-- A transport that answers every request with the given result. -/
def answering (res : DoResult) : Client := { Do := fun _ => res }

/-! ## Sample inputs -/

namespace sample

/-- A live context. -/
def ctx : Context := { Err := none }

/-- A token with non-empty fields. -/
def token : auth.XBLToken := { UserHash := ascii "2535", Token := ascii "eyJhbGci" }

/-- The first bytes of a SubjectPublicKeyInfo, standing for a marshalled key. -/
def der : List Byte := [48, 89, 48, 19, 255]

/-- A key that marshals to `der`. -/
def key : auth.PrivateKey := { PublicKey := { pkix := (der, none) } }

/-- A key the marshaller rejects. -/
def badKey : auth.PrivateKey :=
  { PublicKey := { pkix := ([], some (GoError.errorString (ascii "x509: unsupported elliptic curve"))) } }

/-- A response with status 200 whose body is read to the end. -/
def ok : Response :=
  { StatusCode := 200, Status := ascii "200 OK", Body := { ReadAll := (ascii "[\"jwt\"]", none) } }

/-- A response with status 403. -/
def forbidden : Response :=
  { StatusCode := 403, Status := ascii "403 Forbidden",
    Body := { ReadAll := (ascii "denied", none) } }

/-- A response with status 200 whose body breaks off after ten bytes. -/
def truncated : Response :=
  { StatusCode := 200, Status := ascii "200 OK",
    Body := { ReadAll := (ascii "[\"jwt-part", some (GoError.errorString (ascii "unexpected EOF"))) } }

/-- A transport-level failure. -/
def refused : GoError := GoError.errorString (ascii "dial tcp: connection refused")

end sample

/-! ## Lemmas on the base64 tables -/

namespace base64

theorem decodeMap_encode : ∀ i, i < 64 → decodeMap (encode i) = some i := by decide

theorem encode_ne_padding : ∀ i, i < 64 → encode i ≠ StdPadding := by decide

theorem encode_plain : ∀ i, i < 64 → needsJSONEscape (encode i) = false := by decide

theorem padding_plain : needsJSONEscape StdPadding = false := by decide

theorem ofNat_val (b : Byte) (n : Nat) (h : n = b.val) : (Fin.ofNat n : Byte) = b := by
  apply Fin.ext
  simp only [Fin.ofNat]
  omega

/-- Decoding what was encoded gives the input back. -/
theorem DecodeString_EncodeToString (src : List Byte) :
    DecodeString (EncodeToString src) = some src := by
  induction src using EncodeToString.induct with
  | case1 => rfl
  | case2 b0 =>
    simp only [EncodeToString, DecodeString, and_self, if_true]
    rw [decodeMap_encode _ (Nat.mod_lt _ (by decide)), decodeMap_encode _ (Nat.mod_lt _ (by decide))]
    simp only [Option.some.injEq, List.cons.injEq, and_true]
    exact ofNat_val b0 _ (by omega)
  | case3 b0 b1 =>
    have h2 := encode_ne_padding ((b0.val * 65536 + b1.val * 256) / 64 % 64)
      (Nat.mod_lt _ (by decide))
    simp only [EncodeToString, DecodeString, and_self, if_true, h2, if_false]
    rw [decodeMap_encode _ (Nat.mod_lt _ (by decide)), decodeMap_encode _ (Nat.mod_lt _ (by decide)),
      decodeMap_encode _ (Nat.mod_lt _ (by decide))]
    simp only [Option.some.injEq, List.cons.injEq, and_true]
    exact ⟨ofNat_val b0 _ (by omega), ofNat_val b1 _ (by omega)⟩
  | case4 b0 b1 b2 src ih =>
    have h3 := encode_ne_padding ((b0.val * 65536 + b1.val * 256 + b2.val) % 64)
      (Nat.mod_lt _ (by decide))
    simp only [EncodeToString, DecodeString, h3, and_false, if_false, ih]
    rw [decodeMap_encode _ (Nat.mod_lt _ (by decide)), decodeMap_encode _ (Nat.mod_lt _ (by decide)),
      decodeMap_encode _ (Nat.mod_lt _ (by decide)), decodeMap_encode _ (Nat.mod_lt _ (by decide))]
    simp only [Option.some.injEq, List.cons.injEq, and_true]
    exact ⟨ofNat_val b0 _ (by omega), ofNat_val b1 _ (by omega), ofNat_val b2 _ (by omega)⟩

/-- Every character of an encoding is a plain JSON string character. -/
theorem EncodeToString_plain (src : List Byte) :
    ∀ ch, ch ∈ EncodeToString src → needsJSONEscape ch = false := by
  induction src using EncodeToString.induct with
  | case1 => intro ch h; simp [EncodeToString] at h
  | case2 b0 =>
    intro ch h
    simp only [EncodeToString, List.mem_cons, List.mem_singleton, List.not_mem_nil, or_false] at h
    rcases h with h | h | h | h <;> subst h
    · exact encode_plain _ (Nat.mod_lt _ (by decide))
    · exact encode_plain _ (Nat.mod_lt _ (by decide))
    · exact padding_plain
    · exact padding_plain
  | case3 b0 b1 =>
    intro ch h
    simp only [EncodeToString, List.mem_cons, List.mem_singleton, List.not_mem_nil, or_false] at h
    rcases h with h | h | h | h <;> subst h
    · exact encode_plain _ (Nat.mod_lt _ (by decide))
    · exact encode_plain _ (Nat.mod_lt _ (by decide))
    · exact encode_plain _ (Nat.mod_lt _ (by decide))
    · exact padding_plain
  | case4 b0 b1 b2 src ih =>
    intro ch h
    simp only [EncodeToString, List.mem_cons] at h
    rcases h with h | h | h | h | h
    · subst h; exact encode_plain _ (Nat.mod_lt _ (by decide))
    · subst h; exact encode_plain _ (Nat.mod_lt _ (by decide))
    · subst h; exact encode_plain _ (Nat.mod_lt _ (by decide))
    · subst h; exact encode_plain _ (Nat.mod_lt _ (by decide))
    · exact ih ch h

end base64

/-! ## Lemmas on headers and on the request -/

namespace Header

theorem Values_Set_self (h : Header) (key value : GoString) :
    (h.Set key value).Values key = [value] := by
  simp [Set, Values, List.lookup]

theorem lookup_filter_ne (h : Header) (key other : GoString) (hne : key ≠ other) :
    (h.filter (fun kv => decide (kv.1 ≠ other))).lookup key = h.lookup key := by
  induction h with
  | nil => rfl
  | cons kv h ih =>
    obtain ⟨k, v⟩ := kv
    by_cases hk : k = other
    · subst hk
      have hb : (key == k) = false := by simpa using hne
      simpa [List.filter, List.lookup, hb] using ih
    · by_cases hkey : key = k
      · subst hkey
        simp [List.filter, List.lookup, hk]
      · have hb : (key == k) = false := by simpa using hkey
        simpa [List.filter, List.lookup, hk, hb] using ih

theorem Values_Set_ne (h : Header) (key other value : GoString) (hne : key ≠ other) :
    (h.Set other value).Values key = h.Values key := by
  have hb : (key == other) = false := by simpa using hne
  simp only [Set, Values, List.lookup, hb]
  rw [lookup_filter_ne h key other hne]

end Header

namespace auth

/-- The call when `Do` fails: line 43. -/
theorem RequestMinecraftChain_err (dflt : Client) (ctx : Context) (token : XBLToken)
    (key : PrivateKey) (c : Option Client) (e : GoError)
    (hdo : (client dflt c).Do (request ctx token key) = DoResult.err e) :
    RequestMinecraftChain dflt ctx token key c =
      { chain := [], err := some (ErrorfW minecraftAuthURL e),
        trace := [Event.Do (request ctx token key)] } := by
  simp only [RequestMinecraftChain, hdo]

/-- The call when the status code is not 200: line 49. -/
theorem RequestMinecraftChain_status (dflt : Client) (ctx : Context) (token : XBLToken)
    (key : PrivateKey) (c : Option Client) (r : Response)
    (hdo : (client dflt c).Do (request ctx token key) = DoResult.resp r)
    (hs : r.StatusCode ≠ 200) :
    RequestMinecraftChain dflt ctx token key c =
      { chain := [], err := some (ErrorfV minecraftAuthURL r.Status),
        trace := [Event.Do (request ctx token key), Event.BodyClose] } := by
  simp only [RequestMinecraftChain, hdo, hs, ne_eq, not_false_eq_true, if_true]

/-- The call when the status code is 200: lines 51 to 53. -/
theorem RequestMinecraftChain_read (dflt : Client) (ctx : Context) (token : XBLToken)
    (key : PrivateKey) (c : Option Client) (r : Response)
    (hdo : (client dflt c).Do (request ctx token key) = DoResult.resp r)
    (hs : r.StatusCode = 200) :
    RequestMinecraftChain dflt ctx token key c =
      { chain := r.Body.ReadAll.1, err := r.Body.ReadAll.2,
        trace := [Event.Do (request ctx token key), Event.ReadAll,
          Event.CloseIdleConnections, Event.BodyClose] } := by
  simp only [RequestMinecraftChain, hdo, hs, ne_eq, not_true_eq_false, if_false]

/-- Exactly one request is handed to the client, the one built from the inputs. -/
theorem sent_eq (dflt : Client) (ctx : Context) (token : XBLToken) (key : PrivateKey)
    (c : Option Client) :
    (RequestMinecraftChain dflt ctx token key c).sent = [request ctx token key] := by
  cases hdo : (client dflt c).Do (request ctx token key) with
  | err e => rw [RequestMinecraftChain_err _ _ _ _ _ e hdo]; rfl
  | resp r =>
    by_cases hs : r.StatusCode = 200
    · rw [RequestMinecraftChain_read _ _ _ _ _ r hdo hs]; rfl
    · rw [RequestMinecraftChain_status _ _ _ _ _ r hdo hs]; rfl

theorem request_Body (ctx : Context) (token : XBLToken) (key : PrivateKey) :
    (request ctx token key).Body =
      ascii "\x7b\"identityPublicKey\":\"" ++
        base64.EncodeToString (MarshalPKIXPublicKey key.PublicKey).1 ++ ascii "\"\x7d" := rfl

end auth

/-! ## Test vectors -/

theorem base64_rfc4648_vectors :
    base64.EncodeToString (ascii "") = ascii "" ∧
    base64.EncodeToString (ascii "f") = ascii "Zg==" ∧
    base64.EncodeToString (ascii "fo") = ascii "Zm8=" ∧
    base64.EncodeToString (ascii "foo") = ascii "Zm9v" ∧
    base64.EncodeToString (ascii "foob") = ascii "Zm9vYg==" ∧
    base64.EncodeToString (ascii "fooba") = ascii "Zm9vYmE=" ∧
    base64.EncodeToString (ascii "foobar") = ascii "Zm9vYmFy" ∧
    base64.DecodeString (ascii "Zm9vYmE=") = some (ascii "fooba") ∧
    base64.DecodeString (ascii "Zm9vYmE") = none := by decide

/-! ## The claims -/

namespace auth

theorem post_url_colon :
    ascii "POST " ++ minecraftAuthURL ++ ascii ": " =
      ascii "POST https://multiplayer.minecraft.net/authentication: " := by decide

/-- C1: when the client answers with status code 200 and the body is read to
the end without error, the call returns exactly the bytes of that body as the
chain, with a nil error; against a server that echoes the request body with
status 200 the chain is the request body that was sent. -/
theorem status_200_returns_body (dflt : Client) (ctx : Context) (token : XBLToken)
    (key : PrivateKey) (c : Option Client) (r : Response) (data : GoString)
    (hdo : (client dflt c).Do (request ctx token key) = DoResult.resp r)
    (hs : r.StatusCode = 200) (hread : r.Body.ReadAll = (data, none)) :
    (RequestMinecraftChain dflt ctx token key c).chain = data ∧
    (RequestMinecraftChain dflt ctx token key c).err = none ∧
    (RequestMinecraftChain dflt ctx token key (some echoServer)).sent
      = [request ctx token key] ∧
    (RequestMinecraftChain dflt ctx token key (some echoServer)).chain
      = (request ctx token key).Body ∧
    (RequestMinecraftChain dflt ctx token key (some echoServer)).err = none := by
  rw [RequestMinecraftChain_read _ _ _ _ _ r hdo hs, hread]
  refine ⟨rfl, rfl, sent_eq _ _ _ _ _, ?_, ?_⟩
  · rw [RequestMinecraftChain_read dflt ctx token key (some echoServer) _ rfl rfl]
  · rw [RequestMinecraftChain_read dflt ctx token key (some echoServer) _ rfl rfl]

theorem status_200_returns_body_witness :
    (client (answering (DoResult.resp sample.ok)) none).Do
        (request sample.ctx sample.token sample.key) = DoResult.resp sample.ok ∧
    sample.ok.StatusCode = 200 ∧
    sample.ok.Body.ReadAll = (ascii "[\"jwt\"]", none) ∧
    (RequestMinecraftChain (answering (DoResult.resp sample.ok)) sample.ctx sample.token
      sample.key none).chain = ascii "[\"jwt\"]" ∧
    (RequestMinecraftChain (answering (DoResult.resp sample.ok)) sample.ctx sample.token
      sample.key (some echoServer)).chain = ascii "\x7b\"identityPublicKey\":\"MFkwE/8=\"\x7d" :=
  have h := status_200_returns_body (answering (DoResult.resp sample.ok)) sample.ctx
    sample.token sample.key none sample.ok (ascii "[\"jwt\"]") rfl rfl rfl
  ⟨rfl, rfl, rfl, h.1, h.2.2.2.1.trans (by decide)⟩

/-- C2: for a key whose public part marshals to the DER bytes `d`, the body of
the one request sent is the JSON object with the single key identityPublicKey
holding base64(d); no character of base64(d) needs escaping in a JSON string,
and base64(d) decodes back to exactly `d`. -/
theorem request_body_identityPublicKey (dflt : Client) (ctx : Context) (token : XBLToken)
    (key : PrivateKey) (c : Option Client) (d : List Byte)
    (hkey : MarshalPKIXPublicKey key.PublicKey = (d, none)) :
    (RequestMinecraftChain dflt ctx token key c).sent.map Request.Body =
      [ascii "\x7b\"identityPublicKey\":\"" ++ base64.EncodeToString d ++ ascii "\"\x7d"] ∧
    (∀ ch, ch ∈ base64.EncodeToString d → needsJSONEscape ch = false) ∧
    base64.DecodeString (base64.EncodeToString d) = some d := by
  refine ⟨?_, base64.EncodeToString_plain d, base64.DecodeString_EncodeToString d⟩
  rw [sent_eq, List.map_cons, List.map_nil, request_Body, hkey]

theorem request_body_identityPublicKey_witness :
    MarshalPKIXPublicKey sample.key.PublicKey = (sample.der, none) ∧
    (RequestMinecraftChain echoServer sample.ctx sample.token sample.key none).sent.map
      Request.Body = [ascii "\x7b\"identityPublicKey\":\"MFkwE/8=\"\x7d"] ∧
    base64.DecodeString (base64.EncodeToString sample.der) = some sample.der :=
  have h := request_body_identityPublicKey echoServer sample.ctx sample.token sample.key none
    sample.der rfl
  ⟨rfl, h.1.trans (by decide), h.2.2⟩

theorem key_ne :
    ascii "Authorization" ≠ ascii "User-Agent" ∧
    ascii "Authorization" ≠ ascii "Client-Version" ∧
    ascii "Content-Type" ≠ ascii "Authorization" ∧
    ascii "Content-Type" ≠ ascii "User-Agent" ∧
    ascii "Content-Type" ≠ ascii "Client-Version" ∧
    ascii "User-Agent" ≠ ascii "Client-Version" := by decide

/-- The header lines of the request, key by key. -/
theorem request_Header (ctx : Context) (token : XBLToken) (key : PrivateKey) :
    (request ctx token key).Header.Values (ascii "Content-Type") = [ascii "application/json"] ∧
    (request ctx token key).Header.Values (ascii "Authorization") =
      [ascii "XBL3.0 x=" ++ token.UserHash ++ ascii ";" ++ token.Token] ∧
    (request ctx token key).Header.Values (ascii "User-Agent") = [ascii "MCPE/Android"] ∧
    (request ctx token key).Header.Values (ascii "Client-Version") = [protocol.CurrentVersion] := by
  obtain ⟨h1, h2, h3, h4, h5, h6⟩ := key_ne
  simp only [request, XBLToken.SetAuthHeader, NewRequestWithContext]
  refine ⟨?_, ?_, ?_, ?_⟩
  · rw [Header.Values_Set_ne _ _ _ _ h5, Header.Values_Set_ne _ _ _ _ h4,
      Header.Values_Set_ne _ _ _ _ h3, Header.Values_Set_self]
  · rw [Header.Values_Set_ne _ _ _ _ h2, Header.Values_Set_ne _ _ _ _ h1,
      Header.Values_Set_self]
  · rw [Header.Values_Set_ne _ _ _ _ h6, Header.Values_Set_self]
  · rw [Header.Values_Set_self]

/-- C3: the one request handed to the client carries exactly one Authorization
value, the bytes of XBL3.0 x= followed by the user hash, a semicolon and the
token, unchanged; setting User-Agent and Client-Version afterwards leaves the
Authorization line of any request as SetAuthHeader made it. -/
theorem authorization_header (dflt : Client) (ctx : Context) (token : XBLToken)
    (key : PrivateKey) (c : Option Client) :
    (RequestMinecraftChain dflt ctx token key c).sent.map
        (fun r => r.Header.Values (ascii "Authorization")) =
      [[ascii "XBL3.0 x=" ++ token.UserHash ++ ascii ";" ++ token.Token]] ∧
    (RequestMinecraftChain dflt ctx token key c).sent.map
        (fun r => r.Header.Get (ascii "Authorization")) =
      [ascii "XBL3.0 x=" ++ token.UserHash ++ ascii ";" ++ token.Token] ∧
    (∀ (r : Request) (ua cv : GoString),
      (((token.SetAuthHeader r).Header.Set (ascii "User-Agent") ua).Set
          (ascii "Client-Version") cv).Values (ascii "Authorization") =
        (token.SetAuthHeader r).Header.Values (ascii "Authorization")) := by
  have h := (request_Header ctx token key).2.1
  refine ⟨?_, ?_, ?_⟩
  · rw [sent_eq, List.map_cons, List.map_nil, h]
  · rw [sent_eq, List.map_cons, List.map_nil, Header.Get, h]; rfl
  · intro r ua cv
    rw [Header.Values_Set_ne _ _ _ _ key_ne.2.1, Header.Values_Set_ne _ _ _ _ key_ne.1]

/-- C4: when the response has a status code other than 200, whatever its body,
the call returns the empty chain and the error whose message is
POST https://multiplayer.minecraft.net/authentication: followed by the status
description; the body is never read. -/
theorem non_200_is_rejected (dflt : Client) (ctx : Context) (token : XBLToken)
    (key : PrivateKey) (c : Option Client) (r : Response)
    (hdo : (client dflt c).Do (request ctx token key) = DoResult.resp r)
    (hs : r.StatusCode ≠ 200) :
    (RequestMinecraftChain dflt ctx token key c).chain = [] ∧
    (RequestMinecraftChain dflt ctx token key c).err = some (GoError.errorString
      (ascii "POST https://multiplayer.minecraft.net/authentication: " ++ r.Status)) ∧
    Event.ReadAll ∉ (RequestMinecraftChain dflt ctx token key c).trace := by
  rw [RequestMinecraftChain_status _ _ _ _ _ r hdo hs]
  refine ⟨rfl, ?_, by simp⟩
  simp only [ErrorfV, post_url_colon]

theorem non_200_is_rejected_witness :
    (client (answering (DoResult.resp sample.forbidden)) none).Do
        (request sample.ctx sample.token sample.key) = DoResult.resp sample.forbidden ∧
    sample.forbidden.StatusCode ≠ 200 ∧
    (RequestMinecraftChain (answering (DoResult.resp sample.forbidden)) sample.ctx
      sample.token sample.key none).chain = [] ∧
    (RequestMinecraftChain (answering (DoResult.resp sample.forbidden)) sample.ctx
      sample.token sample.key none).err = some (GoError.errorString
        (ascii "POST https://multiplayer.minecraft.net/authentication: 403 Forbidden")) :=
  have h := non_200_is_rejected (answering (DoResult.resp sample.forbidden)) sample.ctx
    sample.token sample.key none sample.forbidden rfl (by decide)
  ⟨rfl, by decide, h.1, h.2.1.trans (by decide)⟩

/-- C5, evaluated where it fails: a response with status 200 whose body breaks
off after ten bytes makes the call return those ten bytes as the chain together
with the read error, a non-empty chain and a non-nil error at once. -/
theorem truncated_body_returns_chain_and_error :
    (RequestMinecraftChain (answering (DoResult.resp sample.truncated)) sample.ctx
      sample.token sample.key none).chain = ascii "[\"jwt-part" ∧
    (RequestMinecraftChain (answering (DoResult.resp sample.truncated)) sample.ctx
      sample.token sample.key none).chain ≠ [] ∧
    (RequestMinecraftChain (answering (DoResult.resp sample.truncated)) sample.ctx
      sample.token sample.key none).err
      = some (GoError.errorString (ascii "unexpected EOF")) := by decide

/-- C6: when Do fails with the error e, the call returns the empty chain and an
error whose message is POST https://multiplayer.minecraft.net/authentication:
followed by the message of e, and whose Unwrap is e; the only effect of the call
is the one Do, so no body is read or closed. -/
theorem transport_failure_is_wrapped (dflt : Client) (ctx : Context) (token : XBLToken)
    (key : PrivateKey) (c : Option Client) (e : GoError)
    (hdo : (client dflt c).Do (request ctx token key) = DoResult.err e) :
    (RequestMinecraftChain dflt ctx token key c).chain = [] ∧
    (∃ err, (RequestMinecraftChain dflt ctx token key c).err = some err ∧
      err.Error = ascii "POST https://multiplayer.minecraft.net/authentication: " ++ e.Error ∧
      err.Unwrap = some e) ∧
    (RequestMinecraftChain dflt ctx token key c).trace = [Event.Do (request ctx token key)] ∧
    Event.ReadAll ∉ (RequestMinecraftChain dflt ctx token key c).trace ∧
    Event.BodyClose ∉ (RequestMinecraftChain dflt ctx token key c).trace := by
  rw [RequestMinecraftChain_err _ _ _ _ _ e hdo]
  refine ⟨rfl, ⟨_, rfl, ?_, rfl⟩, rfl, by simp, by simp⟩
  simp only [ErrorfW, GoError.Error, post_url_colon]

theorem transport_failure_is_wrapped_witness :
    (client (answering (DoResult.err sample.refused)) none).Do
        (request sample.ctx sample.token sample.key) = DoResult.err sample.refused ∧
    (RequestMinecraftChain (answering (DoResult.err sample.refused)) sample.ctx
      sample.token sample.key none).chain = [] ∧
    (RequestMinecraftChain (answering (DoResult.err sample.refused)) sample.ctx
      sample.token sample.key none).trace
      = [Event.Do (request sample.ctx sample.token sample.key)] :=
  have h := transport_failure_is_wrapped (answering (DoResult.err sample.refused)) sample.ctx
    sample.token sample.key none sample.refused rfl
  ⟨rfl, h.1, h.2.2.1⟩

/-- C7: the one request handed to the client has method POST, the URL
https://multiplayer.minecraft.net/authentication, Content-Type application/json,
User-Agent MCPE/Android and Client-Version equal to protocol.CurrentVersion,
which is 1.21.20 next to CurrentProtocol 712, whatever the token, the key and
the client are. -/
theorem request_line_and_fixed_headers (dflt : Client) (ctx : Context) (token : XBLToken)
    (key : PrivateKey) (c : Option Client) :
    (RequestMinecraftChain dflt ctx token key c).sent.map
        (fun r => (r.Method, r.URL, r.Header.Values (ascii "Content-Type"),
          r.Header.Values (ascii "User-Agent"), r.Header.Values (ascii "Client-Version"))) =
      [(ascii "POST", ascii "https://multiplayer.minecraft.net/authentication",
        [ascii "application/json"], [ascii "MCPE/Android"], [protocol.CurrentVersion])] ∧
    (RequestMinecraftChain dflt ctx token key c).sent.map
        (fun r => r.Header.Get (ascii "Client-Version")) = [ascii "1.21.20"] ∧
    protocol.CurrentVersion = ascii "1.21.20" ∧
    protocol.CurrentProtocol = 712 := by
  obtain ⟨hct, _, hua, hcv⟩ := request_Header ctx token key
  refine ⟨?_, ?_, rfl, rfl⟩
  · rw [sent_eq, List.map_cons, List.map_nil, hct, hua, hcv]
    rfl
  · rw [sent_eq, List.map_cons, List.map_nil, Header.Get, hcv]
    rfl

/-- C8, evaluated where it fails: with no client supplied, a default client
whose Do fails leaves the single effect Do, and one that answers 403 leaves Do
followed by closing the body; in neither call are idle connections released. -/
theorem idle_connections_kept_on_early_return :
    (RequestMinecraftChain (answering (DoResult.err sample.refused)) sample.ctx
      sample.token sample.key none).trace
      = [Event.Do (request sample.ctx sample.token sample.key)] ∧
    (RequestMinecraftChain (answering (DoResult.resp sample.forbidden)) sample.ctx
      sample.token sample.key none).trace
      = [Event.Do (request sample.ctx sample.token sample.key), Event.BodyClose] ∧
    Event.CloseIdleConnections ∉
      (RequestMinecraftChain (answering (DoResult.err sample.refused)) sample.ctx
        sample.token sample.key none).trace ∧
    Event.CloseIdleConnections ∉
      (RequestMinecraftChain (answering (DoResult.resp sample.forbidden)) sample.ctx
        sample.token sample.key none).trace := by decide

/-- C9: every call hands exactly one request to Do, whatever Do answers, and the
error returned is the one failure of that exchange: the wrapped transport error,
the status error, or the error of reading the body. -/
theorem do_is_called_once (dflt : Client) (ctx : Context) (token : XBLToken)
    (key : PrivateKey) (c : Option Client) :
    (RequestMinecraftChain dflt ctx token key c).sent.length = 1 ∧
    ((RequestMinecraftChain dflt ctx token key c).trace.filter
      (fun ev => decide (ev = Event.Do (request ctx token key)))).length = 1 ∧
    (RequestMinecraftChain dflt ctx token key c).err =
      (match (client dflt c).Do (request ctx token key) with
        | DoResult.err e => some (ErrorfW minecraftAuthURL e)
        | DoResult.resp r =>
          if r.StatusCode ≠ 200 then some (ErrorfV minecraftAuthURL r.Status)
          else r.Body.ReadAll.2) := by
  refine ⟨by rw [sent_eq]; rfl, ?_, ?_⟩
  · cases hdo : (client dflt c).Do (request ctx token key) with
    | err e => rw [RequestMinecraftChain_err _ _ _ _ _ e hdo]; simp
    | resp r =>
      by_cases hs : r.StatusCode = 200
      · rw [RequestMinecraftChain_read _ _ _ _ _ r hdo hs]; simp
      · rw [RequestMinecraftChain_status _ _ _ _ _ r hdo hs]; simp
  · cases hdo : (client dflt c).Do (request ctx token key) with
    | err e => rw [RequestMinecraftChain_err _ _ _ _ _ e hdo]
    | resp r =>
      by_cases hs : r.StatusCode = 200
      · rw [RequestMinecraftChain_read _ _ _ _ _ r hdo hs]; simp [hs]
      · rw [RequestMinecraftChain_status _ _ _ _ _ r hdo hs]; simp [hs]

/-- C10: for a key whose public part the marshaller rejects (no bytes and an
error), the call still hands one request to Do, whose body is the JSON object
with identityPublicKey set to the empty string; chain and error are those the
answer of Do gives,
and the whole outcome equals that for a key marshalling to no bytes without an
error, so the marshalling error plays no part. -/
theorem marshal_error_is_dropped (dflt : Client) (ctx : Context) (token : XBLToken)
    (key : PrivateKey) (c : Option Client) (e : GoError)
    (hkey : MarshalPKIXPublicKey key.PublicKey = ([], some e)) :
    (RequestMinecraftChain dflt ctx token key c).sent.map Request.Body =
      [ascii "\x7b\"identityPublicKey\":\"\"\x7d"] ∧
    ((RequestMinecraftChain dflt ctx token key c).chain,
        (RequestMinecraftChain dflt ctx token key c).err) =
      (match (client dflt c).Do (request ctx token key) with
        | DoResult.err e1 => ([], some (ErrorfW minecraftAuthURL e1))
        | DoResult.resp r =>
          if r.StatusCode ≠ 200 then ([], some (ErrorfV minecraftAuthURL r.Status))
          else r.Body.ReadAll) ∧
    RequestMinecraftChain dflt ctx token key c =
      RequestMinecraftChain dflt ctx token { PublicKey := { pkix := ([], none) } } c := by
  refine ⟨?_, ?_, ?_⟩
  · rw [sent_eq, List.map_cons, List.map_nil, request_Body, hkey]
    rfl
  · cases hdo : (client dflt c).Do (request ctx token key) with
    | err e1 => rw [RequestMinecraftChain_err _ _ _ _ _ e1 hdo]
    | resp r =>
      by_cases hs : r.StatusCode = 200
      · rw [RequestMinecraftChain_read _ _ _ _ _ r hdo hs]; simp [hs]
      · rw [RequestMinecraftChain_status _ _ _ _ _ r hdo hs]; simp [hs]
  · have hreq : request ctx token key =
        request ctx token { PublicKey := { pkix := ([], none) } } := by
      unfold request
      rw [hkey]
      rfl
    simp only [RequestMinecraftChain, hreq]

theorem marshal_error_is_dropped_witness :
    MarshalPKIXPublicKey sample.badKey.PublicKey
      = ([], some (GoError.errorString (ascii "x509: unsupported elliptic curve"))) ∧
    (RequestMinecraftChain echoServer sample.ctx sample.token sample.badKey none).sent.map
      Request.Body = [ascii "\x7b\"identityPublicKey\":\"\"\x7d"] ∧
    (RequestMinecraftChain echoServer sample.ctx sample.token sample.badKey none).err = none :=
  have h := marshal_error_is_dropped echoServer sample.ctx sample.token sample.badKey none
    (GoError.errorString (ascii "x509: unsupported elliptic curve")) rfl
  ⟨rfl, h.1, (congrArg Prod.snd h.2.1).trans (by decide)⟩

end auth
